import Mathlib

/-!
Verification of the corabastos daily-bulletin pipeline (`src/corabastos.py`).

The Python source is shallowly embedded below:

* `Fecha` models `datetime.date` (year/month/day); `weekday` computes the
  proleptic-Gregorian weekday with 0 = Monday, exactly as Python's
  `date.weekday()`.
* `es_dia_habil`, `construir_urls_candidatas`, `descargar_pdf`,
  `extraer_tablas_pdf`, `agregar_fecha` and
  `inicializar_encabezados_si_vacio` carry the source's names.
* pandas `DataFrame`s are modelled by `DataFrame` (ordered column names plus
  positional rows of `Cell`s, where `Cell.na` is `pd.NA`); `pd.concat` with
  outer column alignment is `concatFrames`, `df.replace("", pd.NA)` is
  `reemplazarVacias`, `df.dropna(how="all")` is `quitarFilasVacias`.
* the HTTP collaborator of `descargar_pdf` is an explicit oracle
  `String → FetchOutcome α`; the probe loop `probarUrls` additionally
  returns the list of URLs attempted, in order, so that the probing
  behaviour can be stated.
-/

namespace Corabastos

/-- Zero-pad the decimal rendering of `n` to width `w`
(Python `f"\x7bn:0wd\x7d"`; no truncation for wider numbers). -/
def padCeros (w n : Nat) : String :=
  let s := toString n
  String.mk (List.replicate (w - s.length) '0') ++ s

/-- Python `f"\x7bn:02d\x7d"`. -/
def pad2 (n : Nat) : String := padCeros 2 n

/-- Python `f"\x7bn:04d\x7d"`. -/
def pad4 (n : Nat) : String := padCeros 4 n

/-- A calendar date, as Python's `datetime.date`. -/
structure Fecha where
  year : Nat
  month : Nat
  day : Nat
deriving DecidableEq, Repr

/-- Leap-year test of the proleptic Gregorian calendar. -/
def esBisiesto (y : Nat) : Bool :=
  (y % 4 == 0 && y % 100 != 0) || y % 400 == 0

/-- Days in the given month (1-12) of year `y`. -/
def diasDelMes (y m : Nat) : Nat :=
  if m = 2 then (if esBisiesto y then 29 else 28)
  else if m = 4 ∨ m = 6 ∨ m = 9 ∨ m = 11 then 30
  else 31

/-- Days in all years strictly before year `y` (proleptic Gregorian). -/
def diasAntesDeAnio (y : Nat) : Nat :=
  365 * (y - 1) + (y - 1) / 4 - (y - 1) / 100 + (y - 1) / 400

/-- Days in the months of year `y` strictly before month `m`. -/
def diasAntesDeMes (y m : Nat) : Nat :=
  ((List.range (m - 1)).map (fun i => diasDelMes y (i + 1))).sum

/-- Python `date.toordinal()`: day number in the proleptic Gregorian
calendar, with 0001-01-01 having ordinal 1. -/
def toordinal (f : Fecha) : Nat :=
  diasAntesDeAnio f.year + diasAntesDeMes f.year f.month + f.day

/-- Python `date.weekday()`: 0 = Monday … 6 = Sunday.
0001-01-01 (ordinal 1) is a Monday. -/
def weekday (f : Fecha) : Nat :=
  (toordinal f - 1) % 7

/-- Python `date.isoformat()`: `YYYY-MM-DD`. -/
def isoformat (f : Fecha) : String :=
  pad4 f.year ++ "-" ++ pad2 f.month ++ "-" ++ pad2 f.day

/-- `es_dia_habil` from the source: `fecha.weekday() < 5`
(`# 0=Lunes, 6=Domingo`). -/
def es_dia_habil (fecha : Fecha) : Bool :=
  weekday fecha < 5

/-- The `SPANISH_MONTHS` dictionary from the source (1-indexed; the Python
dict raises `KeyError` outside 1-12, which a valid date never hits — the
model returns `""` there, and every theorem below constrains the month to
1-12). -/
def SPANISH_MONTHS : Nat → String
  | 1 => "enero"
  | 2 => "febrero"
  | 3 => "marzo"
  | 4 => "abril"
  | 5 => "mayo"
  | 6 => "junio"
  | 7 => "julio"
  | 8 => "agosto"
  | 9 => "septiembre"
  | 10 => "octubre"
  | 11 => "noviembre"
  | 12 => "diciembre"
  | _ => ""

/-- `construir_urls_candidatas` from the source: the base path
parameterized by year and zero-padded month, then the three filename
patterns. -/
def construir_urls_candidatas (fecha : Fecha) : List String :=
  let year := fecha.year
  let month := fecha.month
  let day := fecha.day
  let mes_nombre := SPANISH_MONTHS month
  let base := "https://corabastos.com.co/wp-content/uploads/" ++ toString year
      ++ "/" ++ pad2 month ++ "/"
  [ base ++ ("Boletin-" ++ pad2 day ++ mes_nombre ++ toString year ++ ".pdf"),
    base ++ ("Boletin-" ++ toString day ++ mes_nombre ++ toString year ++ ".pdf"),
    base ++ ("Boletin_diario_" ++ toString year ++ pad2 month ++ pad2 day ++ ".pdf") ]

/-- Substring containment: `t` occurs contiguously inside `s`
(Python's `t in s` on strings). -/
def contieneSub (s t : String) : Prop :=
  t.data <:+: s.data

/-- Outcome of one `requests.get(url, timeout=20)` call: either an
exception, or a response carrying a status code, a declared content-type
(the `Content-Type` header, `""` when absent) and a body. -/
inductive FetchOutcome (α : Type) where
  | exn (msg : String)
  | resp (status : Nat) (contentType : String) (body : α)
deriving DecidableEq, Repr

/-- Python `str.lower()`, character by character over the string's
characters. -/
def aMinusculas (s : String) : String :=
  String.mk (s.data.map Char.toLower)

/-- The acceptance test of `descargar_pdf`:
`resp.status_code == 200 and "pdf" in resp.headers.get("Content-Type","").lower()`.
An exception is never accepted (the `except` branch continues the loop). -/
def esAceptada {α : Type} : FetchOutcome α → Bool
  | .exn _ => false
  | .resp status ct _ => status == 200 && decide ("pdf".data <:+: (aMinusculas ct).data)

/-- The body (`resp.content`) of a response, `none` for an exception. -/
def cuerpo {α : Type} : FetchOutcome α → Option α
  | .exn _ => none
  | .resp _ _ b => some b

/-- The probe loop of `descargar_pdf`, instrumented with the list of URLs
actually fetched, in order: each URL is fetched once; an accepted response
returns its body immediately (later URLs are not fetched); a rejected
response or an exception moves on to the next URL; an exhausted list gives
`none` (the function's `return None`). -/
def probarUrls {α : Type} (fetch : String → FetchOutcome α) :
    List String → Option α × List String
  | [] => (none, [])
  | url :: rest =>
    let o := fetch url
    if esAceptada o then (cuerpo o, [url])
    else
      let r := probarUrls fetch rest
      (r.1, url :: r.2)

/-- `descargar_pdf` from the source: probe the candidate URLs for `fecha`
in order, via the fetch collaborator. -/
def descargar_pdf {α : Type} (fetch : String → FetchOutcome α) (fecha : Fecha) :
    Option α :=
  (probarUrls fetch (construir_urls_candidatas fecha)).1

/-- A pandas cell: a text cell from the PDF grid, one of the synthetic
integer cells (`pagina`, `tabla`), or `pd.NA`. -/
inductive Cell where
  | str (s : String)
  | int (n : Nat)
  | na
deriving DecidableEq, Repr

/-- Is the cell `pd.NA`? -/
def Cell.isNA : Cell → Bool
  | .na => true
  | _ => false

/-- A pandas `DataFrame`: an ordered list of column names and positional
rows (each row aligned with `cols`). -/
structure DataFrame where
  cols : List String
  rows : List (List Cell)
deriving DecidableEq, Repr

/-- The value of row `r` in the first column named `name`
(`Cell.na` when the column is missing), walking columns and cells in
parallel. -/
def lookupCell : List String → List Cell → String → Cell
  | [], _, _ => .na
  | _ :: _, [], _ => .na
  | c :: cs, v :: vs, name => if c = name then v else lookupCell cs vs name

/-- Overwrite, positionally, every cell of `r` lying in a column named
`name` with `c`. -/
def overwriteCol : List String → String → Cell → List Cell → List Cell
  | [], _, _, r => r
  | _ :: _, _, _, [] => []
  | cn :: cs, name, c, v :: vs =>
    (if cn = name then c else v) :: overwriteCol cs name c vs

/-- pandas `df[name] = c` with a scalar `c`: overwrite the column when it
exists, otherwise append it on the right with `c` in every row. -/
def setCol (df : DataFrame) (name : String) (c : Cell) : DataFrame :=
  if name ∈ df.cols then
    ⟨df.cols, df.rows.map (overwriteCol df.cols name c)⟩
  else
    ⟨df.cols ++ [name], df.rows.map (fun r => r ++ [c])⟩

/-- `pd.DataFrame(rows, columns=header)` for the string grid of one
detected table: every cell becomes a text cell. -/
def mkFrame (header : List String) (rows : List (List String)) : DataFrame :=
  ⟨header, rows.map (List.map Cell.str)⟩

/-- Union of column names, keeping first-appearance order. -/
def unionCols (acc cs : List String) : List String :=
  cs.foldl (fun a c => if c ∈ a then a else a ++ [c]) acc

/-- Re-express a row of a frame with columns `cols` over the unified
column list `u`: cells of missing columns become `pd.NA`. -/
def reindexRow (u cols : List String) (r : List Cell) : List Cell :=
  u.map (fun name => lookupCell cols r name)

/-- The unified column list of a list of frames: union of their column
lists, in first-appearance order. -/
def bigUnion (dfs : List DataFrame) : List String :=
  dfs.foldl (fun acc df => unionCols acc df.cols) []

/-- `pd.concat(frames, ignore_index=True)`: columns are unioned by name in
first-appearance order, rows are reindexed over the union and
concatenated in frame order. -/
def concatFrames (dfs : List DataFrame) : DataFrame :=
  ⟨bigUnion dfs, (dfs.map (fun df => df.rows.map (reindexRow (bigUnion dfs) df.cols))).flatten⟩

/-- `df.replace("", pd.NA)`: empty-string cells become `pd.NA`. -/
def reemplazarVacias (df : DataFrame) : DataFrame :=
  ⟨df.cols, df.rows.map (List.map (fun c => if c = Cell.str "" then Cell.na else c))⟩

/-- `df.dropna(how="all")`: drop the rows all of whose cells are `pd.NA`. -/
def quitarFilasVacias (df : DataFrame) : DataFrame :=
  ⟨df.cols, df.rows.filter (fun r => !r.all Cell.isNA)⟩

/-- One detected table, as the parser collaborator hands it over: a grid
of text cells, first row the header. -/
abbrev RawTable := List (List String)

/-- One page: the detected tables of that page, in detection order. -/
abbrev Pagina := List RawTable

/-- The per-table body of the extraction loop: build the frame from
header (`table[0]`) and data rows (`table[1:]`), then attach the
synthetic `pagina` and `tabla` columns. -/
def procesarTabla (page_num table_idx : Nat) (table : RawTable) : DataFrame :=
  let df := mkFrame (table.headD []) table.tail
  let df := setCol df "pagina" (Cell.int page_num)
  setCol df "tabla" (Cell.int (table_idx + 1))

/-- The page/table double loop of `extraer_tablas_pdf`: pages enumerated
from 1, tables from 0 (`tabla` is `table_idx + 1`); a table with fewer
than 2 rows is skipped. -/
def tablasDeDoc (doc : List Pagina) : List DataFrame :=
  ((doc.enumFrom 1).map (fun pe =>
    ((pe.2.enum).map (fun te =>
      if te.2.length < 2 then [] else [procesarTabla pe.1 te.1 te.2])).flatten)).flatten

/-- `extraer_tablas_pdf` from the source: raise
`ValueError("No se encontraron tablas en el PDF.")` when no table
survived, else concatenate, replace `""` by `pd.NA`, and drop all-`NA`
rows. -/
def extraer_tablas_pdf (doc : List Pagina) : Except String DataFrame :=
  let all_tables := tablasDeDoc doc
  if all_tables.isEmpty then
    .error "No se encontraron tablas en el PDF."
  else
    .ok (quitarFilasVacias (reemplazarVacias (concatFrames all_tables)))

/-- `agregar_fecha` from the source: `df.insert(0, "Fecha", fecha.isoformat())`. -/
def agregar_fecha (df : DataFrame) (fecha : Fecha) : DataFrame :=
  ⟨"Fecha" :: df.cols, df.rows.map (fun r => Cell.str (isoformat fecha) :: r)⟩

/-- `inicializar_encabezados_si_vacio` from the source: the store is the
grid `ws.get_all_values()` returns; append one row with the column names
iff that grid is empty. -/
def inicializar_encabezados_si_vacio (ws : List (List String)) (df : DataFrame) :
    List (List String) :=
  if ws.isEmpty then ws ++ [df.cols] else ws

/-- Well-formedness pandas itself enforces on `pd.DataFrame(rows, columns=header)`:
every row of every detected table has exactly as many cells as the
table's header row (a ragged table raises inside pandas and never
produces a frame). -/
def DocRectangular (doc : List Pagina) : Prop :=
  ∀ page ∈ doc, ∀ t ∈ page, ∀ r ∈ t, r.length = (t.headD []).length

/-! ### Helper lemmas about the cell-level primitives -/

theorem length_overwriteCol (cols : List String) (name : String) (c : Cell) :
    ∀ r : List Cell, (overwriteCol cols name c r).length = r.length := by
  induction cols with
  | nil => intro r; rfl
  | cons cn cs ih =>
    intro r
    cases r with
    | nil => rfl
    | cons v vs => simp [overwriteCol, ih]

theorem lookupCell_overwriteCol_self :
    ∀ (cols : List String) (r : List Cell) (name : String) (c : Cell),
      name ∈ cols → r.length = cols.length →
      lookupCell cols (overwriteCol cols name c r) name = c := by
  intro cols
  induction cols with
  | nil => intro r name c h _; simp at h
  | cons cn cs ih =>
    intro r name c hmem hlen
    cases r with
    | nil => simp at hlen
    | cons v vs =>
      by_cases hcn : cn = name
      · simp [overwriteCol, lookupCell, hcn]
      · have hcs : name ∈ cs := by
          rcases List.mem_cons.mp hmem with h | h
          · exact absurd h.symm hcn
          · exact h
        simp only [overwriteCol, lookupCell, if_neg hcn]
        exact ih vs name c hcs (by simpa using hlen)

theorem lookupCell_overwriteCol_ne :
    ∀ (cols : List String) (r : List Cell) (name other : String) (c : Cell),
      other ≠ name →
      lookupCell cols (overwriteCol cols other c r) name = lookupCell cols r name := by
  intro cols
  induction cols with
  | nil => intro r name other c _; rfl
  | cons cn cs ih =>
    intro r name other c hne
    cases r with
    | nil => rfl
    | cons v vs =>
      by_cases hcn : cn = name
      · subst hcn
        simp [overwriteCol, lookupCell, Ne.symm hne]
      · simp [overwriteCol, lookupCell, hcn, ih vs name other c hne]

theorem lookupCell_append_self :
    ∀ (cols : List String) (r : List Cell) (name : String) (c : Cell),
      name ∉ cols → r.length = cols.length →
      lookupCell (cols ++ [name]) (r ++ [c]) name = c := by
  intro cols
  induction cols with
  | nil =>
    intro r name c _ hlen
    have : r = [] := List.length_eq_zero.mp hlen
    simp [this, lookupCell]
  | cons cn cs ih =>
    intro r name c hmem hlen
    cases r with
    | nil => simp at hlen
    | cons v vs =>
      have hcn : ¬ cn = name := fun h => hmem (by simp [h])
      have hcs : name ∉ cs := fun h => hmem (by simp [h])
      simp only [List.cons_append, lookupCell, if_neg hcn]
      exact ih vs name c hcs (by simpa using hlen)

theorem lookupCell_append_of_mem :
    ∀ (cols : List String) (r : List Cell) (name other : String) (c : Cell),
      name ∈ cols → r.length = cols.length →
      lookupCell (cols ++ [other]) (r ++ [c]) name = lookupCell cols r name := by
  intro cols
  induction cols with
  | nil => intro r name other c h _; simp at h
  | cons cn cs ih =>
    intro r name other c hmem hlen
    cases r with
    | nil => simp at hlen
    | cons v vs =>
      by_cases hcn : cn = name
      · simp [lookupCell, hcn]
      · have hcs : name ∈ cs := by
          rcases List.mem_cons.mp hmem with h | h
          · exact absurd h.symm hcn
          · exact h
        simp only [List.cons_append, lookupCell, if_neg hcn]
        exact ih vs name other c hcs (by simpa using hlen)

theorem lookupCell_map (f : Cell → Cell) (hf : f Cell.na = Cell.na) :
    ∀ (cols : List String) (r : List Cell) (name : String),
      lookupCell cols (r.map f) name = f (lookupCell cols r name) := by
  intro cols
  induction cols with
  | nil => intro r name; simp [lookupCell, hf]
  | cons cn cs ih =>
    intro r name
    cases r with
    | nil => simp [lookupCell, hf]
    | cons v vs =>
      by_cases hcn : cn = name
      · simp [lookupCell, hcn]
      · simp [lookupCell, hcn, ih vs name]

theorem lookupCell_map_over_self (u : List String) (f : String → Cell) :
    ∀ (name : String), name ∈ u → lookupCell u (u.map f) name = f name := by
  induction u with
  | nil => intro name h; simp at h
  | cons x xs ih =>
    intro name hmem
    by_cases hx : x = name
    · simp [lookupCell, hx]
    · have : name ∈ xs := by
        rcases List.mem_cons.mp hmem with h | h
        · exact absurd h.symm hx
        · exact h
      simp [lookupCell, hx, ih name this]

theorem lookupCell_mem :
    ∀ (cols : List String) (r : List Cell) (name : String),
      lookupCell cols r name ≠ Cell.na → lookupCell cols r name ∈ r := by
  intro cols
  induction cols with
  | nil => intro r name h; simp [lookupCell] at h
  | cons cn cs ih =>
    intro r name h
    cases r with
    | nil => simp [lookupCell] at h
    | cons v vs =>
      by_cases hcn : cn = name
      · simp [lookupCell, hcn] at h ⊢
      · simp only [lookupCell, if_neg hcn] at h ⊢
        exact List.mem_cons_of_mem v (ih vs name h)

/-! ### Helper lemmas about the column union -/

theorem mem_unionCols_left {c : String} :
    ∀ (cs acc : List String), c ∈ acc → c ∈ unionCols acc cs := by
  intro cs
  induction cs with
  | nil => intro acc h; exact h
  | cons x xs ih =>
    intro acc h
    simp only [unionCols, List.foldl_cons]
    by_cases hx : x ∈ acc
    · simpa [hx] using ih acc h
    · simpa [hx] using ih (acc ++ [x]) (List.mem_append_left _ h)

theorem mem_unionCols_right {c : String} :
    ∀ (cs acc : List String), c ∈ cs → c ∈ unionCols acc cs := by
  intro cs
  induction cs with
  | nil => intro acc h; simp at h
  | cons x xs ih =>
    intro acc h
    simp only [unionCols, List.foldl_cons]
    rcases List.mem_cons.mp h with h | h
    · subst h
      by_cases hx : c ∈ acc
      · simpa [hx] using mem_unionCols_left xs acc hx
      · simpa [hx] using mem_unionCols_left xs (acc ++ [c]) (by simp)
    · by_cases hx : x ∈ acc
      · simpa [hx] using ih acc h
      · simpa [hx] using ih (acc ++ [x]) h

theorem mem_foldl_unionCols {c : String} :
    ∀ (dfs : List DataFrame) (acc : List String), c ∈ acc →
      c ∈ dfs.foldl (fun a d => unionCols a d.cols) acc := by
  intro dfs
  induction dfs with
  | nil => intro acc h; exact h
  | cons d ds ih =>
    intro acc h
    simp only [List.foldl_cons]
    exact ih _ (mem_unionCols_left _ _ h)

theorem mem_bigUnion_aux {c : String} {df : DataFrame} :
    ∀ (dfs : List DataFrame) (acc : List String), df ∈ dfs → c ∈ df.cols →
      c ∈ dfs.foldl (fun a d => unionCols a d.cols) acc := by
  intro dfs
  induction dfs with
  | nil => intro acc h _; simp at h
  | cons d ds ih =>
    intro acc hmem hc
    simp only [List.foldl_cons]
    rcases List.mem_cons.mp hmem with h | h
    · subst h
      exact mem_foldl_unionCols ds _ (mem_unionCols_right _ _ hc)
    · exact ih _ h hc

theorem mem_bigUnion {c : String} {df : DataFrame} {dfs : List DataFrame}
    (hdf : df ∈ dfs) (hc : c ∈ df.cols) : c ∈ bigUnion dfs :=
  mem_bigUnion_aux dfs [] hdf hc

/-! ### Helper lemmas about `setCol` and `procesarTabla` -/

theorem setCol_cols_mem_self (df : DataFrame) (name : String) (c : Cell) :
    name ∈ (setCol df name c).cols := by
  by_cases h : name ∈ df.cols <;> simp [setCol, h]

theorem setCol_cols_mono {df : DataFrame} {other : String} (name : String) (c : Cell)
    (h : other ∈ df.cols) : other ∈ (setCol df name c).cols := by
  by_cases hm : name ∈ df.cols <;> simp [setCol, hm, h]

theorem setCol_rows_len {df : DataFrame} (name : String) (c : Cell)
    (hlen : ∀ r ∈ df.rows, r.length = df.cols.length) :
    ∀ r' ∈ (setCol df name c).rows, r'.length = (setCol df name c).cols.length := by
  by_cases hm : name ∈ df.cols
  · intro r' hr'
    simp only [setCol, if_pos hm, List.mem_map] at hr' ⊢
    obtain ⟨r, hr, rfl⟩ := hr'
    simp [length_overwriteCol, hlen r hr]
  · intro r' hr'
    simp only [setCol, if_neg hm, List.mem_map] at hr' ⊢
    obtain ⟨r, hr, rfl⟩ := hr'
    simp [hlen r hr]

theorem setCol_lookup_self {df : DataFrame} (name : String) (c : Cell)
    (hlen : ∀ r ∈ df.rows, r.length = df.cols.length) :
    ∀ r' ∈ (setCol df name c).rows, lookupCell (setCol df name c).cols r' name = c := by
  by_cases hm : name ∈ df.cols
  · intro r' hr'
    simp only [setCol, if_pos hm, List.mem_map] at hr' ⊢
    obtain ⟨r, hr, rfl⟩ := hr'
    exact lookupCell_overwriteCol_self df.cols r name c hm (hlen r hr)
  · intro r' hr'
    simp only [setCol, if_neg hm, List.mem_map] at hr' ⊢
    obtain ⟨r, hr, rfl⟩ := hr'
    exact lookupCell_append_self df.cols r name c hm (hlen r hr)

theorem setCol_lookup_other {df : DataFrame} {other : String} (name : String) (c : Cell)
    (hlen : ∀ r ∈ df.rows, r.length = df.cols.length)
    (hother : other ∈ df.cols) (hne : other ≠ name) :
    ∀ r' ∈ (setCol df name c).rows,
      ∃ r ∈ df.rows, lookupCell (setCol df name c).cols r' other = lookupCell df.cols r other := by
  by_cases hm : name ∈ df.cols
  · intro r' hr'
    simp only [setCol, if_pos hm, List.mem_map] at hr' ⊢
    obtain ⟨r, hr, rfl⟩ := hr'
    exact ⟨r, hr, lookupCell_overwriteCol_ne df.cols r other name c (Ne.symm hne)⟩
  · intro r' hr'
    simp only [setCol, if_neg hm, List.mem_map] at hr' ⊢
    obtain ⟨r, hr, rfl⟩ := hr'
    exact ⟨r, hr, lookupCell_append_of_mem df.cols r other name c hother (hlen r hr)⟩

/-- The invariant every frame appended to `all_tables` satisfies: rows
aligned with the columns, the synthetic columns present, and every row
holding integer (hence non-`NA`) values there. -/
def frameOk (df : DataFrame) : Prop :=
  (∀ r ∈ df.rows, r.length = df.cols.length) ∧
  "pagina" ∈ df.cols ∧ "tabla" ∈ df.cols ∧
  ∀ r ∈ df.rows, (∃ p, lookupCell df.cols r "pagina" = Cell.int p) ∧
    (∃ t, lookupCell df.cols r "tabla" = Cell.int t)

theorem procesarTabla_ok (p i : Nat) (t : RawTable)
    (hrect : ∀ r ∈ t, r.length = (t.headD []).length) :
    frameOk (procesarTabla p i t) := by
  have hlen0 : ∀ r ∈ (mkFrame (t.headD []) t.tail).rows,
      r.length = (mkFrame (t.headD []) t.tail).cols.length := by
    intro r hr
    simp only [mkFrame, List.mem_map] at hr
    obtain ⟨r0, hr0, rfl⟩ := hr
    simpa [mkFrame] using hrect r0 (List.mem_of_mem_tail hr0)
  set df0 := mkFrame (t.headD []) t.tail with hdf0
  set df1 := setCol df0 "pagina" (Cell.int p) with hdf1
  have hlen1 : ∀ r ∈ df1.rows, r.length = df1.cols.length :=
    setCol_rows_len _ _ hlen0
  have hpag1 : "pagina" ∈ df1.cols := setCol_cols_mem_self df0 _ _
  have hlook1 : ∀ r ∈ df1.rows, lookupCell df1.cols r "pagina" = Cell.int p :=
    setCol_lookup_self _ _ hlen0
  refine ⟨setCol_rows_len _ _ hlen1, setCol_cols_mono _ _ hpag1,
    setCol_cols_mem_self df1 _ _, ?_⟩
  intro r hr
  constructor
  · obtain ⟨r1, hr1, heq⟩ :=
      setCol_lookup_other "tabla" (Cell.int (i + 1)) hlen1 hpag1 (by decide) r hr
    exact ⟨p, heq.trans (hlook1 r1 hr1)⟩
  · exact ⟨i + 1, setCol_lookup_self _ _ hlen1 r hr⟩

theorem snd_mem_enumFrom {α : Type _} :
    ∀ (l : List α) (n : Nat) (p : Nat × α), p ∈ l.enumFrom n → p.2 ∈ l := by
  intro l
  induction l with
  | nil => intro n p h; simp at h
  | cons x xs ih =>
    intro n p h
    rcases List.mem_cons.mp h with h | h
    · subst h; simp
    · exact List.mem_cons_of_mem x (ih (n + 1) p h)

/-- Membership in the extraction loop's output: every frame comes from a
surviving table of some page. -/
theorem mem_tablasDeDoc {doc : List Pagina} {fr : DataFrame}
    (hfr : fr ∈ tablasDeDoc doc) :
    ∃ pe ∈ doc.enumFrom 1, ∃ te ∈ pe.2.enum,
      2 ≤ te.2.length ∧ fr = procesarTabla pe.1 te.1 te.2 := by
  simp only [tablasDeDoc, List.mem_flatten, List.mem_map] at hfr
  obtain ⟨inner, ⟨pe, hpe, rfl⟩, hfr⟩ := hfr
  simp only [List.mem_flatten, List.mem_map] at hfr
  obtain ⟨inner2, ⟨te, hte, rfl⟩, hfr⟩ := hfr
  by_cases hlen : te.2.length < 2
  · simp [hlen] at hfr
  · refine ⟨pe, hpe, te, hte, Nat.le_of_not_lt hlen, ?_⟩
    simp only [if_neg hlen, List.mem_singleton] at hfr
    exact hfr

theorem frames_ok {doc : List Pagina} (hrect : DocRectangular doc) :
    ∀ fr ∈ tablasDeDoc doc, frameOk fr := by
  intro fr hfr
  obtain ⟨pe, hpe, te, hte, _, rfl⟩ := mem_tablasDeDoc hfr
  exact procesarTabla_ok pe.1 te.1 te.2
    (hrect pe.2 (snd_mem_enumFrom doc 1 pe hpe) te.2 (snd_mem_enumFrom pe.2 0 te (by simpa [List.enum] using hte)))

/-! ### The unified dataset: every row keeps integer provenance cells -/

theorem mem_concat_rows {dfs : List DataFrame} {r : List Cell}
    (hr : r ∈ (concatFrames dfs).rows) :
    ∃ df ∈ dfs, ∃ r0 ∈ df.rows, r = reindexRow (bigUnion dfs) df.cols r0 := by
  simp only [concatFrames, List.mem_flatten, List.mem_map] at hr
  obtain ⟨inner, ⟨df, hdf, rfl⟩, hr⟩ := hr
  obtain ⟨r0, hr0, rfl⟩ := List.mem_map.mp hr
  exact ⟨df, hdf, r0, hr0, rfl⟩

/-- The cell transformation of `df.replace("", pd.NA)`. -/
def reemplazo (c : Cell) : Cell :=
  if c = Cell.str "" then Cell.na else c

theorem reemplazarVacias_eq (df : DataFrame) :
    reemplazarVacias df = ⟨df.cols, df.rows.map (List.map reemplazo)⟩ := rfl

theorem final_row_ok {doc : List Pagina} (hrect : DocRectangular doc)
    {r : List Cell} (hr : r ∈ (reemplazarVacias (concatFrames (tablasDeDoc doc))).rows) :
    (∃ p, lookupCell (bigUnion (tablasDeDoc doc)) r "pagina" = Cell.int p) ∧
    (∃ t, lookupCell (bigUnion (tablasDeDoc doc)) r "tabla" = Cell.int t) ∧
    r.all Cell.isNA = false := by
  rw [reemplazarVacias_eq] at hr
  obtain ⟨r1, hr1, rfl⟩ := List.mem_map.mp hr
  obtain ⟨df, hdf, r0, hr0, rfl⟩ := mem_concat_rows hr1
  obtain ⟨hlen, hpag, htab, hvals⟩ := frames_ok hrect df hdf
  obtain ⟨⟨p, hp⟩, ⟨t, ht⟩⟩ := hvals r0 hr0
  have hpagu : "pagina" ∈ bigUnion (tablasDeDoc doc) := mem_bigUnion hdf hpag
  have htabu : "tabla" ∈ bigUnion (tablasDeDoc doc) := mem_bigUnion hdf htab
  have hmaps : (reindexRow (bigUnion (tablasDeDoc doc)) df.cols r0).map reemplazo =
      (bigUnion (tablasDeDoc doc)).map (fun name => reemplazo (lookupCell df.cols r0 name)) := by
    simp [reindexRow, List.map_map, Function.comp]
  have hlookp : lookupCell (bigUnion (tablasDeDoc doc))
      ((reindexRow (bigUnion (tablasDeDoc doc)) df.cols r0).map reemplazo) "pagina" =
      Cell.int p := by
    rw [hmaps, lookupCell_map_over_self _ _ _ hpagu, hp]
    rfl
  have hlookt : lookupCell (bigUnion (tablasDeDoc doc))
      ((reindexRow (bigUnion (tablasDeDoc doc)) df.cols r0).map reemplazo) "tabla" =
      Cell.int t := by
    rw [hmaps, lookupCell_map_over_self _ _ _ htabu, ht]
    rfl
  refine ⟨⟨p, hlookp⟩, ⟨t, hlookt⟩, ?_⟩
  have hmem : Cell.int p ∈ (reindexRow (bigUnion (tablasDeDoc doc)) df.cols r0).map reemplazo := by
    rw [← hlookp]
    exact lookupCell_mem _ _ _ (by rw [hlookp]; simp)
  rw [Bool.eq_false_iff]
  intro hall
  have := List.all_eq_true.mp hall _ hmem
  simp [Cell.isNA] at this

/-- With the provenance columns attached before the replace/drop steps,
`dropna(how="all")` never drops a row. -/
theorem drop_noop {doc : List Pagina} (hrect : DocRectangular doc) :
    quitarFilasVacias (reemplazarVacias (concatFrames (tablasDeDoc doc))) =
      reemplazarVacias (concatFrames (tablasDeDoc doc)) := by
  have h : ∀ r ∈ (reemplazarVacias (concatFrames (tablasDeDoc doc))).rows,
      (!r.all Cell.isNA) = true := by
    intro r hr
    simp [(final_row_ok hrect hr).2.2]
  simp only [quitarFilasVacias]
  rw [List.filter_eq_self.mpr h]

theorem extraer_ok_eq {doc : List Pagina} (h : tablasDeDoc doc ≠ []) :
    extraer_tablas_pdf doc =
      .ok (quitarFilasVacias (reemplazarVacias (concatFrames (tablasDeDoc doc)))) := by
  simp [extraer_tablas_pdf, h]

/-! ### Row counting -/

theorem setCol_rows_length (df : DataFrame) (name : String) (c : Cell) :
    (setCol df name c).rows.length = df.rows.length := by
  by_cases h : name ∈ df.cols <;> simp [setCol, h]

theorem procesarTabla_rows_length (p i : Nat) (t : RawTable) :
    (procesarTabla p i t).rows.length = t.length - 1 := by
  simp [procesarTabla, setCol_rows_length, mkFrame, List.length_tail]

theorem pagina_rows_sum (p : Nat) :
    ∀ (page : List RawTable) (k : Nat),
      ((((page.enumFrom k).map (fun te =>
          if te.2.length < 2 then [] else [procesarTabla p te.1 te.2])).flatten).map
        (fun df => df.rows.length)).sum =
      ((page.filter (fun t => 2 ≤ t.length)).map (fun t => t.length - 1)).sum := by
  intro page
  induction page with
  | nil => intro k; rfl
  | cons t ts ih =>
    intro k
    by_cases h : t.length < 2
    · have h2 : ¬ 2 ≤ t.length := Nat.not_le_of_lt h
      simp only [List.enumFrom, List.map_cons, List.flatten_cons, if_pos h,
        List.nil_append, List.filter_cons, h2]
      simp only [decide_eq_true_eq] at *
      rw [ih (k + 1)]
      simp [h2]
    · have h2 : 2 ≤ t.length := Nat.le_of_not_lt h
      simp only [List.enumFrom, List.map_cons, List.flatten_cons, if_neg h,
        List.filter_cons]
      rw [List.singleton_append]
      simp only [List.map_cons, List.sum_cons, procesarTabla_rows_length]
      rw [ih (k + 1)]
      simp [h2]

theorem tablasDeDoc_rows_sum :
    ∀ (doc : List Pagina) (n : Nat),
      (((((doc.enumFrom n).map (fun pe =>
          ((pe.2.enum).map (fun te =>
            if te.2.length < 2 then [] else [procesarTabla pe.1 te.1 te.2])).flatten)).flatten).map
        (fun df => df.rows.length)).sum) =
      (doc.map (fun page =>
        ((page.filter (fun t => 2 ≤ t.length)).map (fun t => t.length - 1)).sum)).sum := by
  intro doc
  induction doc with
  | nil => intro n; rfl
  | cons page pages ih =>
    intro n
    simp only [List.enumFrom, List.map_cons, List.flatten_cons, List.map_append,
      List.sum_append, List.sum_cons]
    rw [ih (n + 1)]
    simp only [List.enum]
    rw [pagina_rows_sum n page 0]

theorem concat_rows_length (dfs : List DataFrame) :
    (concatFrames dfs).rows.length = (dfs.map (fun df => df.rows.length)).sum := by
  have h : (List.length ∘ fun df : DataFrame =>
      List.map (reindexRow (bigUnion dfs) df.cols) df.rows) =
      fun df : DataFrame => df.rows.length := by
    funext df
    simp
  simp [concatFrames, List.length_flatten, List.map_map, h]

theorem reemplazar_rows_length (df : DataFrame) :
    (reemplazarVacias df).rows.length = df.rows.length := by
  simp [reemplazarVacias]

/-! ### Emptiness of the extraction output -/

theorem pagina_nil_iff (p : Nat) :
    ∀ (page : List RawTable) (k : Nat),
      (((page.enumFrom k).map (fun te =>
          if te.2.length < 2 then [] else [procesarTabla p te.1 te.2])).flatten = [] ↔
        ∀ t ∈ page, t.length < 2) := by
  intro page
  induction page with
  | nil => intro k; simp
  | cons t ts ih =>
    intro k
    simp only [List.enumFrom, List.map_cons, List.flatten_cons, List.append_eq_nil]
    constructor
    · rintro ⟨h1, h2⟩
      intro t' ht'
      rcases List.mem_cons.mp ht' with h | h
      · subst h
        by_cases hl : t'.length < 2
        · exact hl
        · simp [hl] at h1
      · exact (ih (k + 1)).mp h2 t' h
    · intro h
      refine ⟨by simp [h t (by simp)], (ih (k + 1)).mpr (fun t' ht' => h t' (List.mem_cons_of_mem t ht'))⟩

theorem tablasDeDoc_nil_iff :
    ∀ (doc : List Pagina) (n : Nat),
      ((((doc.enumFrom n).map (fun pe =>
          ((pe.2.enum).map (fun te =>
            if te.2.length < 2 then [] else [procesarTabla pe.1 te.1 te.2])).flatten)).flatten = []) ↔
        ∀ page ∈ doc, ∀ t ∈ page, t.length < 2) := by
  intro doc
  induction doc with
  | nil => intro n; simp
  | cons page pages ih =>
    intro n
    simp only [List.enumFrom, List.map_cons, List.flatten_cons, List.append_eq_nil]
    constructor
    · rintro ⟨h1, h2⟩
      intro page' hp'
      rcases List.mem_cons.mp hp' with h | h
      · subst h
        exact (pagina_nil_iff n page' 0).mp h1
      · exact (ih (n + 1)).mp h2 page' h
    · intro h
      exact ⟨(pagina_nil_iff n page 0).mpr (h page (by simp)),
        (ih (n + 1)).mpr (fun page' hp' => h page' (List.mem_cons_of_mem page hp'))⟩

theorem tablasDeDoc_eq_nil_iff (doc : List Pagina) :
    tablasDeDoc doc = [] ↔ ∀ page ∈ doc, ∀ t ∈ page, t.length < 2 := by
  simpa [tablasDeDoc, List.enum] using tablasDeDoc_nil_iff doc 1

/-! ## Claims -/

/-- C8: `es_dia_habil` returns `true` iff the date's weekday index is 0-4
and `false` exactly on Saturday (5) and Sunday (6); the concrete anchors
pin the 0 = Monday calibration (2024-03-11 was a Monday, 2024-03-16 a
Saturday and 2024-03-17 a Sunday). -/
theorem C8_es_dia_habil (fecha : Fecha) :
    (es_dia_habil fecha = true ↔ weekday fecha < 5) ∧
    (es_dia_habil fecha = false ↔ (weekday fecha = 5 ∨ weekday fecha = 6)) ∧
    weekday ⟨2024, 3, 11⟩ = 0 ∧ weekday ⟨2024, 3, 16⟩ = 5 ∧
    weekday ⟨2024, 3, 17⟩ = 6 := by
  have h7 : weekday fecha < 7 := Nat.mod_lt _ (by decide)
  refine ⟨by simp [es_dia_habil], ?_, by decide, by decide, by decide⟩
  simp only [es_dia_habil, decide_eq_false_iff_not, Nat.not_lt]
  omega

/-- C7: `inicializar_encabezados_si_vacio` writes exactly one row — the
dataset's column-name sequence — iff the store grid has zero rows, and is
a no-op whenever the store already holds at least one row, whatever that
row contains. -/
theorem C7_inicializar_encabezados (ws : List (List String)) (df : DataFrame) :
    (ws = [] → inicializar_encabezados_si_vacio ws df = [df.cols]) ∧
    (ws ≠ [] → inicializar_encabezados_si_vacio ws df = ws) := by
  constructor
  · rintro rfl
    rfl
  · intro h
    simp [inicializar_encabezados_si_vacio, h]

/-- Witness for C7 at an empty and a non-empty store (the non-empty row
does not match the incoming schema and is still left alone). -/
theorem C7_witness :
    inicializar_encabezados_si_vacio [] ⟨["Fecha", "Producto"], []⟩ =
      [["Fecha", "Producto"]] ∧
    inicializar_encabezados_si_vacio [["otra", "cosa", "vieja"]]
      ⟨["Fecha", "Producto"], []⟩ = [["otra", "cosa", "vieja"]] :=
  ⟨(C7_inicializar_encabezados [] ⟨["Fecha", "Producto"], []⟩).1 rfl,
   (C7_inicializar_encabezados [["otra", "cosa", "vieja"]]
      ⟨["Fecha", "Producto"], []⟩).2 (by simp)⟩

/-- C4: `extraer_tablas_pdf` fails — with exactly the
`No se encontraron tablas en el PDF.` error — iff no page yields a table
with at least 2 rows; as soon as one usable table exists it returns a
dataset. (`DocRectangular` is the well-formedness pandas itself enforces;
a ragged table would abort the Python run with a different error before
this dichotomy applies.) -/
theorem C4_extraer_error (doc : List Pagina) (_hrect : DocRectangular doc) :
    (extraer_tablas_pdf doc = .error "No se encontraron tablas en el PDF." ↔
      ∀ page ∈ doc, ∀ t ∈ page, t.length < 2) ∧
    ((∃ page ∈ doc, ∃ t ∈ page, 2 ≤ t.length) →
      ∃ df, extraer_tablas_pdf doc = .ok df) := by
  by_cases h : tablasDeDoc doc = []
  · have hall := (tablasDeDoc_eq_nil_iff doc).mp h
    constructor
    · have he : extraer_tablas_pdf doc = .error "No se encontraron tablas en el PDF." := by
        simp [extraer_tablas_pdf, h]
      exact iff_of_true he hall
    · rintro ⟨page, hp, t, ht, h2⟩
      exact absurd (hall page hp t ht) (by omega)
  · constructor
    · rw [extraer_ok_eq h]
      constructor
      · intro hcontra
        exact absurd hcontra (by simp)
      · intro hall
        exact absurd ((tablasDeDoc_eq_nil_iff doc).mpr hall) h
    · intro _
      exact ⟨_, extraer_ok_eq h⟩

/-- Witness for C4: a document whose only table is header-only yields the
`NoTablesFound` error. -/
theorem C4_witness :
    extraer_tablas_pdf [[[["solo"]]], []] =
      .error "No se encontraron tablas en el PDF." :=
  (C4_extraer_error [[[["solo"]]], []] (by unfold DocRectangular; decide)).1.mpr (by decide)

/-- C3: the extraction output has one row per data row of each usable
table: a table with fewer than 2 rows is filtered out and contributes
nothing, and a 2-row table (header + 1 data row) contributes exactly
2 - 1 = 1 row. -/
theorem C3_filas_por_tabla (doc : List Pagina) (df : DataFrame)
    (hrect : DocRectangular doc) (hok : extraer_tablas_pdf doc = .ok df) :
    df.rows.length = (doc.map (fun page =>
      ((page.filter (fun t => 2 ≤ t.length)).map (fun t => t.length - 1)).sum)).sum := by
  by_cases h : tablasDeDoc doc = []
  · simp [extraer_tablas_pdf, h] at hok
  · rw [extraer_ok_eq h] at hok
    obtain rfl := Except.ok.inj hok
    rw [drop_noop hrect, reemplazar_rows_length, concat_rows_length]
    simpa [tablasDeDoc] using tablasDeDoc_rows_sum doc 1

/-- Witness for C3: a page with one 2-row table and one 1-row table, plus
an empty page — the output has exactly 1 row. -/
theorem C3_witness :
    (DataFrame.mk ["Producto", "Precio", "pagina", "tabla"]
      [[Cell.str "a", Cell.str "b", Cell.int 1, Cell.int 1]]).rows.length =
    (([[[["Producto", "Precio"], ["a", "b"]], [["solo"]]], []] : List Pagina).map
      (fun page =>
        ((page.filter (fun t => 2 ≤ t.length)).map (fun t => t.length - 1)).sum)).sum :=
  C3_filas_por_tabla [[[["Producto", "Precio"], ["a", "b"]], [["solo"]]], []]
    ⟨["Producto", "Precio", "pagina", "tabla"],
      [[Cell.str "a", Cell.str "b", Cell.int 1, Cell.int 1]]⟩ (by unfold DocRectangular; decide) rfl

/-- C9: every row of the extraction output carries integer — hence
non-absent — values in the `pagina` and `tabla` columns (they are
attached before the replace/drop steps), so no output row is all-absent
and the `dropna(how="all")` step drops nothing from the unified
dataset. -/
theorem C9_procedencia_enteras (doc : List Pagina) (df : DataFrame)
    (hrect : DocRectangular doc) (hok : extraer_tablas_pdf doc = .ok df) :
    (∀ r ∈ df.rows, (∃ p, lookupCell df.cols r "pagina" = Cell.int p) ∧
      (∃ t, lookupCell df.cols r "tabla" = Cell.int t) ∧
      r.all Cell.isNA = false) ∧
    quitarFilasVacias (reemplazarVacias (concatFrames (tablasDeDoc doc))) =
      reemplazarVacias (concatFrames (tablasDeDoc doc)) := by
  refine ⟨?_, drop_noop hrect⟩
  by_cases h : tablasDeDoc doc = []
  · simp [extraer_tablas_pdf, h] at hok
  · rw [extraer_ok_eq h] at hok
    obtain rfl := Except.ok.inj hok
    rw [drop_noop hrect]
    intro r hr
    exact final_row_ok hrect hr

/-- Witness for C9 on a one-table document: the first output row has
integer provenance cells and is not all-absent, and the drop step is the
identity there. -/
theorem C9_witness :
    ((∃ p, lookupCell ["Producto", "Precio", "pagina", "tabla"]
        [Cell.str "x", Cell.str "y", Cell.int 1, Cell.int 1] "pagina" = Cell.int p) ∧
     (∃ t, lookupCell ["Producto", "Precio", "pagina", "tabla"]
        [Cell.str "x", Cell.str "y", Cell.int 1, Cell.int 1] "tabla" = Cell.int t) ∧
     [Cell.str "x", Cell.str "y", Cell.int 1, Cell.int 1].all Cell.isNA = false) ∧
    quitarFilasVacias (reemplazarVacias (concatFrames
        (tablasDeDoc [[[["Producto", "Precio"], ["x", "y"], ["z", "w"]]]]))) =
      reemplazarVacias (concatFrames
        (tablasDeDoc [[[["Producto", "Precio"], ["x", "y"], ["z", "w"]]]])) :=
  ⟨(C9_procedencia_enteras [[[["Producto", "Precio"], ["x", "y"], ["z", "w"]]]]
      ⟨["Producto", "Precio", "pagina", "tabla"],
        [[Cell.str "x", Cell.str "y", Cell.int 1, Cell.int 1],
         [Cell.str "z", Cell.str "w", Cell.int 1, Cell.int 1]]⟩
      (by unfold DocRectangular; decide) rfl).1
      [Cell.str "x", Cell.str "y", Cell.int 1, Cell.int 1] (by simp),
   (C9_procedencia_enteras [[[["Producto", "Precio"], ["x", "y"], ["z", "w"]]]]
      ⟨["Producto", "Precio", "pagina", "tabla"],
        [[Cell.str "x", Cell.str "y", Cell.int 1, Cell.int 1],
         [Cell.str "z", Cell.str "w", Cell.int 1, Cell.int 1]]⟩
      (by unfold DocRectangular; decide) rfl).2⟩

/-- C2, counterexample: a data row whose every cell is the empty string
IS present in the final `AnnotatedDataset` — its text cells become
absent, but the synthetic `pagina`/`tabla` cells added beforehand keep it
alive, so the claimed dataset-without-that-row (0 rows) is refuted by the
actual 1-row result. -/
theorem C2_counterexample :
    extraer_tablas_pdf [[[["Producto", "Precio"], ["", ""]]]] =
      .ok ⟨["Producto", "Precio", "pagina", "tabla"],
        [[Cell.na, Cell.na, Cell.int 1, Cell.int 1]]⟩ ∧
    agregar_fecha ⟨["Producto", "Precio", "pagina", "tabla"],
        [[Cell.na, Cell.na, Cell.int 1, Cell.int 1]]⟩ ⟨2024, 3, 15⟩ =
      ⟨["Fecha", "Producto", "Precio", "pagina", "tabla"],
        [[Cell.str "2024-03-15", Cell.na, Cell.na, Cell.int 1, Cell.int 1]]⟩ :=
  ⟨rfl, rfl⟩

/-- C2, amended: an extracted data row all of whose cells are empty
strings is NOT dropped — every data row of every usable table yields
exactly one row of the final `AnnotatedDataset` (with the all-empty
row's original cells turned absent), and no row of the final dataset has
every cell absent (its `Fecha`, `pagina` and `tabla` cells never are). -/
theorem C2_amended (doc : List Pagina) (df : DataFrame) (fecha : Fecha)
    (hrect : DocRectangular doc) (hok : extraer_tablas_pdf doc = .ok df) :
    (agregar_fecha df fecha).rows.length = (doc.map (fun page =>
      ((page.filter (fun t => 2 ≤ t.length)).map (fun t => t.length - 1)).sum)).sum ∧
    ∀ r ∈ (agregar_fecha df fecha).rows, r.all Cell.isNA = false := by
  constructor
  · by_cases h : tablasDeDoc doc = []
    · simp [extraer_tablas_pdf, h] at hok
    · rw [extraer_ok_eq h] at hok
      obtain rfl := Except.ok.inj hok
      show (List.map _ _).length = _
      rw [List.length_map, drop_noop hrect, reemplazar_rows_length, concat_rows_length]
      simpa [tablasDeDoc] using tablasDeDoc_rows_sum doc 1
  · intro r hr
    simp only [agregar_fecha, List.mem_map] at hr
    obtain ⟨r0, _, rfl⟩ := hr
    simp [Cell.isNA]

/-- Witness for C2's amended statement: the all-empty data row of the
counterexample document is retained as the single output row. -/
theorem C2_amended_witness :
    (agregar_fecha ⟨["Producto", "Precio", "pagina", "tabla"],
        [[Cell.na, Cell.na, Cell.int 1, Cell.int 1]]⟩ ⟨2024, 3, 15⟩).rows.length =
      (([[[["Producto", "Precio"], ["", ""]]]] : List Pagina).map (fun page =>
        ((page.filter (fun t => 2 ≤ t.length)).map (fun t => t.length - 1)).sum)).sum :=
  (C2_amended [[[["Producto", "Precio"], ["", ""]]]]
    ⟨["Producto", "Precio", "pagina", "tabla"],
      [[Cell.na, Cell.na, Cell.int 1, Cell.int 1]]⟩ ⟨2024, 3, 15⟩ (by unfold DocRectangular; decide) rfl).1

/-- C1: the end-to-end scenario — page 1 holds one table with header
`[Producto, Precio]` and two data rows (any cell contents), page 2 holds
no tables: extraction returns the 4 columns
`Producto, Precio, pagina, tabla` with exactly 2 rows, each tagged
`pagina = 1` and `tabla = 1`; `agregar_fecha` for 2024-03-15 then yields
5 columns led by `Fecha`, whose value is `"2024-03-15"` in every row. -/
theorem C1_extraccion_y_fecha (a b c d : String) :
    ∃ df : DataFrame,
      extraer_tablas_pdf [[[["Producto", "Precio"], [a, b], [c, d]]], []] = .ok df ∧
      df.cols = ["Producto", "Precio", "pagina", "tabla"] ∧
      df.rows.length = 2 ∧
      (∀ r ∈ df.rows, lookupCell df.cols r "pagina" = Cell.int 1 ∧
        lookupCell df.cols r "tabla" = Cell.int 1) ∧
      (agregar_fecha df ⟨2024, 3, 15⟩).cols =
        ["Fecha", "Producto", "Precio", "pagina", "tabla"] ∧
      (agregar_fecha df ⟨2024, 3, 15⟩).rows.length = 2 ∧
      ∀ r ∈ (agregar_fecha df ⟨2024, 3, 15⟩).rows,
        r.headD Cell.na = Cell.str "2024-03-15" := by
  have hrect : DocRectangular [[[["Producto", "Precio"], [a, b], [c, d]]], []] := by
    intro page hp t ht r hr
    simp only [List.mem_cons, List.not_mem_nil, or_false] at hp
    rcases hp with rfl | rfl
    · simp only [List.mem_cons, List.not_mem_nil, or_false] at ht
      subst ht
      simp only [List.mem_cons, List.not_mem_nil, or_false] at hr
      rcases hr with rfl | rfl | rfl <;> rfl
    · simp at ht
  have htd : tablasDeDoc [[[["Producto", "Precio"], [a, b], [c, d]]], []] =
      [⟨["Producto", "Precio", "pagina", "tabla"],
        [[Cell.str a, Cell.str b, Cell.int 1, Cell.int 1],
         [Cell.str c, Cell.str d, Cell.int 1, Cell.int 1]]⟩] := rfl
  have hne : tablasDeDoc [[[["Producto", "Precio"], [a, b], [c, d]]], []] ≠ [] := by
    rw [htd]
    simp
  have hX : reemplazarVacias (concatFrames
      (tablasDeDoc [[[["Producto", "Precio"], [a, b], [c, d]]], []])) =
      ⟨["Producto", "Precio", "pagina", "tabla"],
        [[reemplazo (Cell.str a), reemplazo (Cell.str b), Cell.int 1, Cell.int 1],
         [reemplazo (Cell.str c), reemplazo (Cell.str d), Cell.int 1, Cell.int 1]]⟩ := rfl
  refine ⟨_, extraer_ok_eq hne, ?_⟩
  rw [drop_noop hrect, hX]
  refine ⟨rfl, rfl, ?_, rfl, rfl, ?_⟩
  · intro r hr
    simp only [List.mem_cons, List.not_mem_nil, or_false] at hr
    rcases hr with rfl | rfl <;> exact ⟨rfl, rfl⟩
  · intro r hr
    simp only [agregar_fecha, List.mem_map] at hr
    obtain ⟨r0, _, rfl⟩ := hr
    rfl

/-- The probe loop in closed form: the attempted URLs are the longest
all-rejected prefix of the candidates, followed by the first accepted one
when it exists; the result is that candidate's body, else `none`. -/
theorem probarUrls_eq {α : Type} (fetch : String → FetchOutcome α) :
    ∀ urls : List String,
      probarUrls fetch urls =
        (match urls.dropWhile (fun u => !esAceptada (fetch u)) with
          | [] => (none, urls)
          | u :: _ => (cuerpo (fetch u),
              urls.takeWhile (fun u => !esAceptada (fetch u)) ++ [u])) := by
  intro urls
  induction urls with
  | nil => rfl
  | cons u rest ih =>
    by_cases ha : esAceptada (fetch u)
    · simp [probarUrls, ha, List.dropWhile_cons, List.takeWhile_cons]
    · simp only [probarUrls, ha, Bool.false_eq_true, if_false,
        List.dropWhile_cons, List.takeWhile_cons, Bool.not_false, if_true, ih]
      cases hd : rest.dropWhile (fun u => !esAceptada (fetch u)) <;> simp

/-- C5: the locator probes candidates in list order, accepting exactly a
status-200 response whose declared content-type contains `pdf`
case-insensitively; the first accepted candidate's payload is returned
and nothing after it is fetched; rejections and exceptions are non-fatal
and probing continues; if every candidate fails the result is `none`
(NotFound), and when only the third of three candidates succeeds all
3 are fetched, in order. -/
theorem C5_descargar (α : Type) (fetch : String → FetchOutcome α)
    (urls : List String) (fecha : Fecha) :
    (probarUrls fetch urls =
      (match urls.dropWhile (fun u => !esAceptada (fetch u)) with
        | [] => (none, urls)
        | u :: _ => (cuerpo (fetch u),
            urls.takeWhile (fun u => !esAceptada (fetch u)) ++ [u]))) ∧
    ((∀ u ∈ urls, esAceptada (fetch u) = false) →
      probarUrls fetch urls = (none, urls)) ∧
    (descargar_pdf fetch fecha = (probarUrls fetch (construir_urls_candidatas fecha)).1) ∧
    (∀ u₁ u₂ u₃, urls = [u₁, u₂, u₃] →
      esAceptada (fetch u₁) = false → esAceptada (fetch u₂) = false →
      esAceptada (fetch u₃) = true →
      probarUrls fetch urls = (cuerpo (fetch u₃), [u₁, u₂, u₃])) := by
  refine ⟨probarUrls_eq fetch urls, ?_, rfl, ?_⟩
  · intro hall
    rw [probarUrls_eq fetch urls]
    have hdrop : urls.dropWhile (fun u => !esAceptada (fetch u)) = [] := by
      rw [List.dropWhile_eq_nil_iff]
      intro u hu
      simp [hall u hu]
    rw [hdrop]
  · rintro u₁ u₂ u₃ rfl h1 h2 h3
    simp [probarUrls, h1, h2, h3]

/-- Witness for C5: two candidates raise, the third returns 200 with
content-type `application/pdf`; its body is returned after exactly the
three fetches, in order. -/
theorem C5_witness :
    probarUrls (fun u => if u = "u3" then FetchOutcome.resp 200 "application/pdf" (37 : Nat)
        else FetchOutcome.exn "connection error") ["u1", "u2", "u3"] =
      (some 37, ["u1", "u2", "u3"]) :=
  (C5_descargar Nat _ ["u1", "u2", "u3"] ⟨2024, 3, 15⟩).2.2.2 "u1" "u2" "u3" rfl
    rfl rfl (by decide)

/-! ### String helpers for the URL claims -/

theorem data_append_eq (s t : String) : (s ++ t).data = s.data ++ t.data := rfl

theorem eq_vacia_of_data {s : String} (h : s.data = []) : s = "" := by
  cases s with
  | mk da =>
    simp only at h
    subst h
    rfl

theorem eq_of_data_eq {a b : String} (h : a.data = b.data) : a = b := by
  cases a with
  | mk da =>
    cases b with
    | mk db =>
      simp only at h
      rw [h]

theorem append_ne_vacia_of_left {s : String} (t : String) (h : s ≠ "") : s ++ t ≠ "" := by
  intro he
  have hd : (s ++ t).data = [] := by rw [he]
  rw [data_append_eq] at hd
  exact h (eq_vacia_of_data (List.append_eq_nil.mp hd).1)

theorem append_cancel_izq {s a b : String} (h : s ++ a = s ++ b) : a = b := by
  have hd := congrArg String.data h
  rw [data_append_eq, data_append_eq] at hd
  exact eq_of_data_eq (List.append_cancel_left hd)

theorem contieneSub_refl (s : String) : contieneSub s s := ⟨[], [], by simp⟩

theorem contieneSub_append_left (s t u : String) (h : contieneSub s t) :
    contieneSub (s ++ u) t := by
  obtain ⟨l, r, hl⟩ := h
  exact ⟨l, r ++ u.data, by rw [data_append_eq, ← hl]; simp⟩

theorem contieneSub_append_right (s t u : String) (h : contieneSub u t) :
    contieneSub (s ++ u) t := by
  obtain ⟨l, r, hl⟩ := h
  exact ⟨s.data ++ l, r, by rw [data_append_eq, ← hl]; simp⟩

theorem pad2_length_de_mes {m : Nat} (h1 : 1 ≤ m) (h2 : m ≤ 12) :
    (pad2 m).length = 2 := by
  interval_cases m <;> exact rfl

theorem pad2_eq_toString_de_dia {d : Nat} (h1 : 10 ≤ d) (h2 : d ≤ 31) :
    pad2 d = toString d := by
  interval_cases d <;> exact rfl

theorem boletin_data_ne (l₁ l₂ : List Char) :
    ('B' :: 'o' :: 'l' :: 'e' :: 't' :: 'i' :: 'n' :: '-' :: l₁) ≠
      ('B' :: 'o' :: 'l' :: 'e' :: 't' :: 'i' :: 'n' :: '_' :: l₂) := by
  intro h
  simp only [List.cons.injEq] at h
  exact absurd h.2.2.2.2.2.2.2.1 (by decide)

/-- C6: for a date with a valid month and a 4-digit year,
`construir_urls_candidatas` returns exactly the three patterns —
(a) `Boletin-` + zero-padded day + Spanish month name + year,
(b) `Boletin-` + unpadded day + Spanish month name + year,
(c) `Boletin_diario_` + fully numeric zero-padded date — all under the
year/zero-padded-month base path; each of the 3 candidates is non-empty
and contains the year's 4 digits and the 2-character zero-padded month. -/
theorem C6_candidatas (fecha : Fecha) (hm1 : 1 ≤ fecha.month) (hm2 : fecha.month ≤ 12)
    (hy : (toString fecha.year).length = 4) :
    construir_urls_candidatas fecha = [
      "https://corabastos.com.co/wp-content/uploads/" ++ toString fecha.year ++ "/" ++
        pad2 fecha.month ++ "/" ++
        ("Boletin-" ++ pad2 fecha.day ++ SPANISH_MONTHS fecha.month ++
          toString fecha.year ++ ".pdf"),
      "https://corabastos.com.co/wp-content/uploads/" ++ toString fecha.year ++ "/" ++
        pad2 fecha.month ++ "/" ++
        ("Boletin-" ++ toString fecha.day ++ SPANISH_MONTHS fecha.month ++
          toString fecha.year ++ ".pdf"),
      "https://corabastos.com.co/wp-content/uploads/" ++ toString fecha.year ++ "/" ++
        pad2 fecha.month ++ "/" ++
        ("Boletin_diario_" ++ toString fecha.year ++ pad2 fecha.month ++
          pad2 fecha.day ++ ".pdf")] ∧
    (construir_urls_candidatas fecha).length = 3 ∧
    (∀ c ∈ construir_urls_candidatas fecha,
      c ≠ "" ∧ contieneSub c (toString fecha.year) ∧ contieneSub c (pad2 fecha.month)) ∧
    (pad2 fecha.month).length = 2 := by
  obtain ⟨y, m, d⟩ := fecha
  have hlist : construir_urls_candidatas ⟨y, m, d⟩ = [
      "https://corabastos.com.co/wp-content/uploads/" ++ toString y ++ "/" ++
        pad2 m ++ "/" ++
        ("Boletin-" ++ pad2 d ++ SPANISH_MONTHS m ++ toString y ++ ".pdf"),
      "https://corabastos.com.co/wp-content/uploads/" ++ toString y ++ "/" ++
        pad2 m ++ "/" ++
        ("Boletin-" ++ toString d ++ SPANISH_MONTHS m ++ toString y ++ ".pdf"),
      "https://corabastos.com.co/wp-content/uploads/" ++ toString y ++ "/" ++
        pad2 m ++ "/" ++
        ("Boletin_diario_" ++ toString y ++ pad2 m ++ pad2 d ++ ".pdf")] := rfl
  refine ⟨hlist, rfl, ?_, ?_⟩
  · intro c hc
    rw [hlist] at hc
    have hbase_y : contieneSub ("https://corabastos.com.co/wp-content/uploads/" ++
        toString y ++ "/" ++ pad2 m ++ "/") (toString y) :=
      contieneSub_append_left _ _ _ (contieneSub_append_left _ _ _
        (contieneSub_append_left _ _ _
          (contieneSub_append_right _ _ _ (contieneSub_refl (toString y)))))
    have hbase_m : contieneSub ("https://corabastos.com.co/wp-content/uploads/" ++
        toString y ++ "/" ++ pad2 m ++ "/") (pad2 m) :=
      contieneSub_append_left _ _ _
        (contieneSub_append_right _ _ _ (contieneSub_refl (pad2 m)))
    have hbase_ne : ("https://corabastos.com.co/wp-content/uploads/" ++
        toString y ++ "/" ++ pad2 m ++ "/") ≠ "" :=
      append_ne_vacia_of_left _ (append_ne_vacia_of_left _ (append_ne_vacia_of_left _
        (append_ne_vacia_of_left _ (by decide))))
    simp only [List.mem_cons, List.not_mem_nil, or_false] at hc
    rcases hc with rfl | rfl | rfl <;>
      exact ⟨append_ne_vacia_of_left _ hbase_ne,
        contieneSub_append_left _ _ _ hbase_y,
        contieneSub_append_left _ _ _ hbase_m⟩
  · exact pad2_length_de_mes hm1 hm2

/-- Witness for C6 at 2024-03-15. -/
theorem C6_witness :
    (construir_urls_candidatas ⟨2024, 3, 15⟩).length = 3 ∧
    (∀ c ∈ construir_urls_candidatas ⟨2024, 3, 15⟩,
      c ≠ "" ∧ contieneSub c (toString (2024 : Nat)) ∧ contieneSub c (pad2 3)) ∧
    (pad2 3).length = 2 :=
  ⟨(C6_candidatas ⟨2024, 3, 15⟩ (by decide) (by decide) (by decide)).2.1,
   (C6_candidatas ⟨2024, 3, 15⟩ (by decide) (by decide) (by decide)).2.2.1,
   (C6_candidatas ⟨2024, 3, 15⟩ (by decide) (by decide) (by decide)).2.2.2⟩

/-- C10: when the day of month has two digits, the zero-padded and
unpadded renderings coincide, so the first two candidate URLs are the
same string and the candidate list holds only two distinct locations. -/
theorem C10_candidatas_duplicadas (fecha : Fecha)
    (hd1 : 10 ≤ fecha.day) (hd2 : fecha.day ≤ 31) :
    ∃ x z, construir_urls_candidatas fecha = [x, x, z] ∧ x ≠ z := by
  have hpad : pad2 fecha.day = toString fecha.day := pad2_eq_toString_de_dia hd1 hd2
  have hlist : construir_urls_candidatas fecha = [
      "https://corabastos.com.co/wp-content/uploads/" ++ toString fecha.year ++ "/" ++
        pad2 fecha.month ++ "/" ++
        ("Boletin-" ++ pad2 fecha.day ++ SPANISH_MONTHS fecha.month ++
          toString fecha.year ++ ".pdf"),
      "https://corabastos.com.co/wp-content/uploads/" ++ toString fecha.year ++ "/" ++
        pad2 fecha.month ++ "/" ++
        ("Boletin-" ++ toString fecha.day ++ SPANISH_MONTHS fecha.month ++
          toString fecha.year ++ ".pdf"),
      "https://corabastos.com.co/wp-content/uploads/" ++ toString fecha.year ++ "/" ++
        pad2 fecha.month ++ "/" ++
        ("Boletin_diario_" ++ toString fecha.year ++ pad2 fecha.month ++
          pad2 fecha.day ++ ".pdf")] := rfl
  refine ⟨"https://corabastos.com.co/wp-content/uploads/" ++ toString fecha.year ++ "/" ++
      pad2 fecha.month ++ "/" ++
      ("Boletin-" ++ toString fecha.day ++ SPANISH_MONTHS fecha.month ++
        toString fecha.year ++ ".pdf"),
    "https://corabastos.com.co/wp-content/uploads/" ++ toString fecha.year ++ "/" ++
      pad2 fecha.month ++ "/" ++
      ("Boletin_diario_" ++ toString fecha.year ++ pad2 fecha.month ++
        pad2 fecha.day ++ ".pdf"), ?_, ?_⟩
  · rw [hlist, hpad]
  · intro h
    have h2 := append_cancel_izq h
    have hd := congrArg String.data h2
    simp only [data_append_eq, List.append_assoc] at hd
    simp only [List.cons_append, List.nil_append] at hd
    exact boletin_data_ne _ _ hd

/-- Witness for C10 at 2024-03-15 (a two-digit day). -/
theorem C10_witness :
    ∃ x z, construir_urls_candidatas ⟨2024, 3, 15⟩ = [x, x, z] ∧ x ≠ z :=
  C10_candidatas_duplicadas ⟨2024, 3, 15⟩ (by decide) (by decide)

/-- Witness for C1 at concrete cell contents. -/
theorem C1_witness :
    ∃ df : DataFrame,
      extraer_tablas_pdf [[[["Producto", "Precio"], ["Papa", "1200"], ["Yuca", "2500"]]], []] =
        .ok df ∧
      df.cols = ["Producto", "Precio", "pagina", "tabla"] ∧
      df.rows.length = 2 ∧
      (∀ r ∈ df.rows, lookupCell df.cols r "pagina" = Cell.int 1 ∧
        lookupCell df.cols r "tabla" = Cell.int 1) ∧
      (agregar_fecha df ⟨2024, 3, 15⟩).cols =
        ["Fecha", "Producto", "Precio", "pagina", "tabla"] ∧
      (agregar_fecha df ⟨2024, 3, 15⟩).rows.length = 2 ∧
      ∀ r ∈ (agregar_fecha df ⟨2024, 3, 15⟩).rows,
        r.headD Cell.na = Cell.str "2024-03-15" :=
  C1_extraccion_y_fecha "Papa" "1200" "Yuca" "2500"

/-- Witness for C8 at 2024-03-15 (a Friday). -/
theorem C8_witness :
    (es_dia_habil ⟨2024, 3, 15⟩ = true ↔ weekday ⟨2024, 3, 15⟩ < 5) ∧
    (es_dia_habil ⟨2024, 3, 15⟩ = false ↔
      (weekday ⟨2024, 3, 15⟩ = 5 ∨ weekday ⟨2024, 3, 15⟩ = 6)) ∧
    weekday ⟨2024, 3, 11⟩ = 0 ∧ weekday ⟨2024, 3, 16⟩ = 5 ∧
    weekday ⟨2024, 3, 17⟩ = 6 :=
  C8_es_dia_habil ⟨2024, 3, 15⟩

end Corabastos


